import Mathlib

/-!
# Verification of the zipstream archive writer

Shallow embedding of the ZIP container encoder: the `Compressor` enum
(`src/compression.rs`), the streaming writer `ZipArchive` and the seekable
writer `ZipArchiveNoStream` (`src/compress/std/archive.rs`), the tokio
`Archive` comment path (`src/archive.rs`), and the binary record builders.

Byte sequences are `List Nat` with every stored byte reduced modulo 256.
Machine-integer casts (`as u16` / `as u32`) are `% 2^16` / `% 2^32`.
The byte-counting sink wrapper of a forward-only writer is the list of
committed bytes; its counter is the list length.  The seekable sink is a
byte list plus a write position.
-/

/-- Little-endian encoding of a `u16` value: `ArchiveDescriptor::write_u16`
appends the two bytes of the value in little-endian order. -/
def u16LE (v : Nat) : List Nat := [v % 256, v / 256 % 256]

/-- Little-endian encoding of a `u32` value: `ArchiveDescriptor::write_u32`
appends the four bytes of the value in little-endian order. -/
def u32LE (v : Nat) : List Nat :=
  [v % 256, v / 256 % 256, v / 2 ^ 16 % 256, v / 2 ^ 24 % 256]

/-- One bit-step of the CRC-32/ISO-HDLC algorithm used by the `crc32fast`
hasher that every `Compressor::compress` branch updates over the
pre-compression bytes. -/
def crc32Step (c : Nat) : Nat :=
  if c % 2 = 1 then (c / 2) ^^^ 0xEDB88320 else c / 2

/-- Feed one byte into the running CRC-32 state. -/
def crc32UpdateByte (crc b : Nat) : Nat := crc32Step^[8] (crc ^^^ b)

/-- CRC-32/ISO-HDLC of a byte sequence (initial state `0xFFFFFFFF`, final
xor `0xFFFFFFFF`), the checksum `Compressor::compress` accumulates over the
uncompressed payload bytes. -/
def crc32 (data : List Nat) : Nat :=
  (data.foldl crc32UpdateByte 0xFFFFFFFF) ^^^ 0xFFFFFFFF

/-! ## Constants from `src/constants.rs` -/

def FILE_HEADER_BASE_SIZE : Nat := 7 * 2 + 4 * 4
def DESCRIPTOR_SIZE : Nat := 4 * 4
def CENTRAL_DIRECTORY_ENTRY_BASE_SIZE : Nat := 11 * 2 + 6 * 4
def END_OF_CENTRAL_DIRECTORY_SIZE : Nat := 5 * 2 + 3 * 4
def FILE_HEADER_CRC_OFFSET : Nat := 14

def CENTRAL_DIRECTORY_END_SIGNATURE : Nat := 0x06054b50
def CENTRAL_DIRECTORY_ENTRY_SIGNATURE : Nat := 0x02014b50
def LOCAL_FILE_HEADER_SIGNATURE : Nat := 0x04034b50
def DATA_DESCRIPTOR_SIGNATURE : Nat := 0x08074b50

def DEFAULT_VERSION : Nat := 46
def UNIX : Nat := 3
/-- `VERSION_MADE_BY = (UNIX << 8) | DEFAULT_VERSION`. -/
def VERSION_MADE_BY : Nat := UNIX * 2 ^ 8 ||| DEFAULT_VERSION

/-! ## `Compressor` (`src/compression.rs`) -/

def STORE : Nat := 0
def DEFALTE : Nat := 8
def BZIP2 : Nat := 12
def LZMA : Nat := 14
def ZSTD : Nat := 93
def XZ : Nat := 95

/-- The `Compressor` enum of `src/compression.rs`; `Unknown` carries a raw
`u16` method code. -/
inductive Compressor where
  | Store : Compressor
  | Deflate : Compressor
  | DeflateFate2 : Compressor
  | BZip2 : Compressor
  | Lzma : Compressor
  | Zstd : Compressor
  | Xz : Compressor
  | Unknown : Nat → Compressor
deriving DecidableEq, Repr

/-- `Compressor::compression_method`. -/
def Compressor.compression_method : Compressor → Nat
  | .Store => STORE
  | .Deflate => DEFALTE
  | .DeflateFate2 => DEFALTE
  | .BZip2 => BZIP2
  | .Lzma => LZMA
  | .Zstd => ZSTD
  | .Xz => XZ
  | .Unknown compression_method => compression_method

/-- `Compressor::version_needed`: 46 for BZip2, 20 otherwise. -/
def Compressor.version_needed : Compressor → Nat
  | .BZip2 => 46
  | _ => 20

/-- `Compressor::from_compression_method`. -/
def Compressor.from_compression_method (compression_method : Nat) : Compressor :=
  if compression_method = STORE then .Store
  else if compression_method = DEFALTE then .Deflate
  else if compression_method = BZIP2 then .BZip2
  else if compression_method = LZMA then .Lzma
  else if compression_method = ZSTD then .Zstd
  else if compression_method = XZ then .Xz
  else .Unknown compression_method

/-- `Compressor::compression_method_label`. -/
def Compressor.compression_method_label : Compressor → String
  | .Store => "store"
  | .Deflate => "deflate"
  | .DeflateFate2 => "deflate"
  | .BZip2 => "bzip2"
  | .Lzma => "lzma"
  | .Zstd => "zstd"
  | .Xz => "xz"
  | .Unknown _ => "unknown"

/-- `Compressor::is_unknown`. -/
def Compressor.is_unknown : Compressor → Bool
  | .Unknown _ => true
  | _ => false

/-- Modelled from the spec: the `Level` compression-level hint of the
missing `src/compress/std/compression.rs` ("compression_level:
codec-specific optional hint"); only `Level::Default` is referenced by the
code present under `src/`. -/
inductive Level where
  | Default : Level
  | Precise : Int → Level
deriving DecidableEq, Repr

/-- Behaviour of the external codecs (deflate/bzip2/lzma/zstd/xz are
out-of-scope collaborators per the spec): `encode c lvl p` is the byte
sequence the codec for `c` emits to the sink, after the final flush, when
fed payload `p` at level `lvl`.  The theorems quantify over this. -/
structure Codec where
  encode : Compressor → Level → List Nat → List Nat

/-- The sink bytes produced by `Compressor::compress` for a payload:
`Store` passes the raw bytes through unchanged (concrete repo code), the
real codecs emit their `Codec` output, and `Unknown` panics
(`panic!("unsupported compression method …")`), modelled as `none`.
In every non-`Unknown` branch the returned byte count is the total read,
i.e. the payload length, and the hasher has consumed exactly the payload. -/
def compressorOutput (enc : Codec) (c : Compressor) (lvl : Level)
    (payload : List Nat) : Option (List Nat) :=
  match c with
  | .Unknown _ => none
  | .Store => some payload
  | c => some (enc.encode c lvl payload)

/-! ## `ArchiveDescriptor` -/

/-- Modelled from the spec: the Binary Descriptor Builder of the missing
`src/descriptor.rs` (§4.1): an append-only byte buffer; `write_u16/u32`
append little-endian, `write_bytes`/`write_str` append raw bytes, `clear`
resets the length to zero.  The pre-sizing capacity argument of `new` has
no observable effect on the bytes. -/
structure ArchiveDescriptor where
  buffer : List Nat
deriving DecidableEq, Repr

def ArchiveDescriptor.new (_capacity : Nat) : ArchiveDescriptor := ⟨[]⟩

def ArchiveDescriptor.write_u16 (d : ArchiveDescriptor) (v : Nat) : ArchiveDescriptor :=
  ⟨d.buffer ++ u16LE v⟩

def ArchiveDescriptor.write_u32 (d : ArchiveDescriptor) (v : Nat) : ArchiveDescriptor :=
  ⟨d.buffer ++ u32LE v⟩

def ArchiveDescriptor.write_bytes (d : ArchiveDescriptor) (bs : List Nat) : ArchiveDescriptor :=
  ⟨d.buffer ++ bs⟩

def ArchiveDescriptor.clear (_d : ArchiveDescriptor) : ArchiveDescriptor := ⟨[]⟩

/-! ## Entry metadata and options -/

/-- `ArchiveFileEntry` (declared in the repository's `types.rs`, absent
from `src/`; every field is pinned by the construction sites in
`src/archive.rs` and `src/compress/std/archive.rs`). -/
structure ArchiveFileEntry where
  file_name_as_bytes : List Nat
  file_name_len : Nat
  uncompressed_size : Nat
  compressed_size : Nat
  crc32 : Nat
  offset : Nat
  last_mod_file_time : Nat
  last_mod_file_date : Nat
  compressor : Compressor
  general_purpose_flags : Nat
  extra_field_length : Nat
  version_needed : Nat
  compression_method : Nat
deriving DecidableEq, Repr

/-- Modelled from the spec: `ArchiveFileEntry::version_made_by` (missing
`src/types.rs`); §6 fixes the central-directory version-made-by to the
constant `(3 << 8) | 46`. -/
def ArchiveFileEntry.versionMadeBy (_e : ArchiveFileEntry) : Nat := VERSION_MADE_BY

/-- `FileOptions` (`src/compress/std/archive.rs`).  `last_modified_time :
FileDateTime` is embedded through its `ms_dos()` projection — the DOS
date/time conversion is out of scope per spec §1 — as the two `u16` words
`lastModDate`/`lastModTime` that `ms_dos()` returns. -/
structure FileOptions where
  compressor : Compressor
  compression_level : Level
  lastModTime : Nat
  lastModDate : Nat
  permissions : Option Nat
deriving DecidableEq, Repr

/-- `FileOptions::compression_method` builder. -/
def FileOptions.compression_method (o : FileOptions) (method : Compressor) : FileOptions :=
  { o with compressor := method }

/-- `FileOptions::compression_level` builder. -/
def FileOptions.with_compression_level (o : FileOptions) (level : Level) : FileOptions :=
  { o with compression_level := level }

/-- `FileOptions::unix_permissions` builder: keeps only the 9 permission
bits via `mode & 0o777`. -/
def FileOptions.unix_permissions (o : FileOptions) (mode : Nat) : FileOptions :=
  { o with permissions := some (mode &&& 0o777) }

/-- Modelled from the spec: the `ms_dos()` words of
`FileDateTime::default()` (missing `src/types.rs`; §3: "epoch-zero
default").  No claim depends on the concrete values. -/
def defaultDosTime : Nat := 0

def defaultDosDate : Nat := 33

/-- `FileOptions::default()`: Deflate, default level, default timestamp,
no permissions. -/
def FileOptions.defaults : FileOptions :=
  { compressor := .Deflate
    compression_level := .Default
    lastModTime := defaultDosTime
    lastModDate := defaultDosDate
    permissions := none }

/-! ## General-purpose flags

Rust `str::len` returns the length in bytes of the UTF-8 encoding, the
same quantity as `str::as_bytes().len()`; a filename is embedded as its
UTF-8 byte sequence, so both operands of the flag test below are the
length of that list. -/

/-- Rust `file_name.len()` for `file_name: &str`: the UTF-8 byte length. -/
def rustStrLen (file_name : List Nat) : Nat := file_name.length

/-- General-purpose flags of the streaming writer
(`src/compress/std/archive.rs:110-113`, `src/archive.rs:118-121`):
`1 << 3` always set; bit 11 or-ed in when
`file_name_as_bytes_own.len() > file_name.len()`. -/
def streamingGPFlags (file_name : List Nat) : Nat :=
  let general_purpose_flags : Nat := 1 <<< 3
  if file_name.length > rustStrLen file_name then
    general_purpose_flags ||| 1 <<< 11
  else general_purpose_flags

/-- General-purpose flags of the seekable writer (`build_file_header`,
`src/compress/std/archive.rs:476-479`): starts at 0; bit 11 or-ed in under
the same condition. -/
def noStreamGPFlags (file_name : List Nat) : Nat :=
  let general_purpose_flags : Nat := 0
  if file_name.length > rustStrLen file_name then
    general_purpose_flags ||| 1 <<< 11
  else general_purpose_flags

/-- Spec-side definition (for claim C3 only, following the spec's words,
not the source): the number of characters of a UTF-8 byte sequence =
number of non-continuation bytes. -/
def utf8CharCount (bytes : List Nat) : Nat :=
  (bytes.filter (fun b => !(128 ≤ b && b < 192))).length

/-! ## Record builders -/

/-- The local-file-header write sequence shared verbatim by
`ZipArchive::append_file` (with zero CRC/sizes), `Archive::append_base`
and `build_file_header`: signature, version-needed, flags, method, time,
date, crc32, compressed size, uncompressed size, name length, extra-field
length 0, name bytes. -/
def buildLocalFileHeader (version_needed general_purpose_flags compression_method
    time date crc compressed_size uncompressed_size : Nat)
    (file_name : List Nat) : ArchiveDescriptor :=
  ((((((((((((ArchiveDescriptor.new (FILE_HEADER_BASE_SIZE + file_name.length)
    ).write_u32 LOCAL_FILE_HEADER_SIGNATURE
    ).write_u16 version_needed
    ).write_u16 general_purpose_flags
    ).write_u16 compression_method
    ).write_u16 time
    ).write_u16 date
    ).write_u32 crc
    ).write_u32 compressed_size
    ).write_u32 uncompressed_size
    ).write_u16 (file_name.length % 2 ^ 16)
    ).write_u16 0
    ).write_bytes file_name

/-- The 14 bytes of a local file header before its CRC field. -/
def localHeaderPre (version_needed general_purpose_flags compression_method
    time date : Nat) : List Nat :=
  u32LE LOCAL_FILE_HEADER_SIGNATURE ++ u16LE version_needed ++
    u16LE general_purpose_flags ++ u16LE compression_method ++
    u16LE time ++ u16LE date

/-- Flat byte layout of a local file header. -/
def localHeaderBytes (version_needed general_purpose_flags compression_method
    time date crc compressed_size uncompressed_size : Nat)
    (file_name : List Nat) : List Nat :=
  localHeaderPre version_needed general_purpose_flags compression_method time date ++
    (u32LE crc ++ u32LE compressed_size ++ u32LE uncompressed_size) ++
    (u16LE (file_name.length % 2 ^ 16) ++ u16LE 0 ++ file_name)

/-- `build_central_directory_file_header`
(`src/compress/std/archive.rs:219-241`, identically inlined in
`Archive::finalize`): one central-directory record from one entry. -/
def build_central_directory_file_header (central_directory_header : ArchiveDescriptor)
    (file_info : ArchiveFileEntry) : ArchiveDescriptor :=
  (((((((((((((((((central_directory_header.write_u32 CENTRAL_DIRECTORY_ENTRY_SIGNATURE
    ).write_u16 file_info.versionMadeBy
    ).write_u16 file_info.version_needed
    ).write_u16 file_info.general_purpose_flags
    ).write_u16 file_info.compression_method
    ).write_u16 file_info.last_mod_file_time
    ).write_u16 file_info.last_mod_file_date
    ).write_u32 file_info.crc32
    ).write_u32 file_info.compressed_size
    ).write_u32 file_info.uncompressed_size
    ).write_u16 file_info.file_name_len
    ).write_u16 0
    ).write_u16 0
    ).write_u16 0
    ).write_u16 0
    ).write_u32 (0o100644 <<< 16)
    ).write_u32 file_info.offset
    ).write_bytes file_info.file_name_as_bytes

/-- Flat byte layout of one central-directory record. -/
def cdFileHeaderBytes (e : ArchiveFileEntry) : List Nat :=
  u32LE CENTRAL_DIRECTORY_ENTRY_SIGNATURE ++ u16LE e.versionMadeBy ++
    u16LE e.version_needed ++ u16LE e.general_purpose_flags ++
    u16LE e.compression_method ++ u16LE e.last_mod_file_time ++
    u16LE e.last_mod_file_date ++ u32LE e.crc32 ++ u32LE e.compressed_size ++
    u32LE e.uncompressed_size ++ u16LE e.file_name_len ++ u16LE 0 ++ u16LE 0 ++
    u16LE 0 ++ u16LE 0 ++ u32LE (0o100644 <<< 16) ++ u32LE e.offset ++
    e.file_name_as_bytes

/-- `build_central_directory_end` (`src/compress/std/archive.rs:243-273`):
the end-of-central-directory record.  `central_directory_size` is computed
by the caller as a `u32` difference of the current size and the captured
offset.  The comment bytes are appended only when the `u16` length field
is positive. -/
def build_central_directory_end (entriesCount : Nat) (archive_comment : List Nat)
    (central_directory_offset central_directory_size : Nat) : ArchiveDescriptor :=
  let zip_file_comment_length := archive_comment.length % 2 ^ 16
  let d := ((((((((ArchiveDescriptor.new END_OF_CENTRAL_DIRECTORY_SIZE
    ).write_u32 CENTRAL_DIRECTORY_END_SIGNATURE
    ).write_u16 0
    ).write_u16 0
    ).write_u16 (entriesCount % 2 ^ 16)
    ).write_u16 (entriesCount % 2 ^ 16)
    ).write_u32 central_directory_size
    ).write_u32 central_directory_offset
    ).write_u16 zip_file_comment_length
  if zip_file_comment_length > 0 then d.write_bytes archive_comment else d

/-! ## Streaming writer `ZipArchive` (`src/compress/std/archive.rs`)

The byte-counting sink wrapper over a forward-only writer is embedded as
the list of committed bytes; `get_written_bytes_count` is its length.
A `Compressor::Unknown` compressor panics inside `compress`
(`src/compression.rs:253-255`); the panic is embedded as `Except.error`
carrying the sink contents at the moment of the abort. -/

structure ZipArchive where
  sink : List Nat
  files_info : List ArchiveFileEntry
  archive_comment : List Nat
deriving DecidableEq, Repr

/-- `ZipArchive::new` over a fresh sink. -/
def ZipArchive.new : ZipArchive := ⟨[], [], []⟩

/-- `ZipArchive::set_archive_comment`: keeps the first
`min(len, u16::MAX)` bytes of the comment. -/
def ZipArchive.set_archive_comment (a : ZipArchive) (comment : List Nat) : ZipArchive :=
  let len := min comment.length (2 ^ 16 - 1)
  { a with archive_comment := comment.take len }

/-- `ZipArchive::append_file` (`src/compress/std/archive.rs:85-174`):
capture the offset, write the local header with zero CRC/size fields,
stream the compressed payload, then write the trailing data descriptor and
push the entry record. -/
def ZipArchive.append_file (enc : Codec) (a : ZipArchive)
    (file_name payload : List Nat) (options : FileOptions) :
    Except (List Nat) ZipArchive :=
  let compressor := options.compressor
  let time := options.lastModTime
  let date := options.lastModDate
  let offset := a.sink.length % 2 ^ 32
  let compression_method := compressor.compression_method
  let file_len := file_name.length % 2 ^ 16
  let extra_field_length := 0
  let version_needed := compressor.version_needed
  let general_purpose_flags := streamingGPFlags file_name
  let file_header := buildLocalFileHeader version_needed general_purpose_flags
    compression_method time date 0 0 0 file_name
  let sink1 := a.sink ++ file_header.buffer
  let cur_size := sink1.length
  match compressorOutput enc compressor options.compression_level payload with
  | none => .error sink1
  | some out =>
    let sink2 := sink1 ++ out
    let uncompressed_size := payload.length
    let compressed_size := sink2.length - cur_size
    let crc32v := crc32 payload
    let file_descriptor := ((((ArchiveDescriptor.new DESCRIPTOR_SIZE
      ).write_u32 DATA_DESCRIPTOR_SIGNATURE
      ).write_u32 crc32v
      ).write_u32 (compressed_size % 2 ^ 32)
      ).write_u32 (uncompressed_size % 2 ^ 32)
    let sink3 := sink2 ++ file_descriptor.buffer
    .ok { sink := sink3
          files_info := a.files_info ++ [{
            file_name_as_bytes := file_name
            file_name_len := file_len
            uncompressed_size := uncompressed_size % 2 ^ 32
            compressed_size := compressed_size % 2 ^ 32
            crc32 := crc32v
            offset := offset
            last_mod_file_time := time
            last_mod_file_date := date
            compressor := compressor
            general_purpose_flags := general_purpose_flags
            extra_field_length := extra_field_length
            version_needed := version_needed
            compression_method := compression_method }]
          archive_comment := a.archive_comment }

/-- A sequence of `append_file` calls, aborting at the first failure. -/
def ZipArchive.appendAll (enc : Codec) (a : ZipArchive) :
    List (List Nat × List Nat × FileOptions) → Except (List Nat) ZipArchive
  | [] => .ok a
  | (n, p, o) :: rest =>
    match a.append_file enc n p o with
    | .error s => .error s
    | .ok a1 => a1.appendAll enc rest

/-- `ZipArchive::finalize` (`src/compress/std/archive.rs:185-216`):
capture the central-directory offset, replay every entry through
`build_central_directory_file_header` (the shared descriptor is cleared
between records, so each record contributes exactly its own bytes), then
write the end record. -/
def ZipArchive.finalize (a : ZipArchive) : ZipArchive :=
  let central_directory_offset := a.sink.length % 2 ^ 32
  let cdBytes := (a.files_info.map (fun e =>
    (build_central_directory_file_header
      (ArchiveDescriptor.new (CENTRAL_DIRECTORY_ENTRY_BASE_SIZE + 200)) e).buffer)).flatten
  let sink1 := a.sink ++ cdBytes
  let current_archive_size := sink1.length
  let central_directory_size :=
    (current_archive_size % 2 ^ 32 + 2 ^ 32 - central_directory_offset) % 2 ^ 32
  let eocd := build_central_directory_end a.files_info.length a.archive_comment
    central_directory_offset central_directory_size
  { a with sink := sink1 ++ eocd.buffer }

/-! ## Seekable writer `ZipArchiveNoStream` (`src/compress/std/archive.rs`)

The sink must support `stream_position`/`seek`; it is embedded as the byte
list plus the current write position.  A write overwrites in place and
extends at the end. -/

structure SeekSink where
  bytes : List Nat
  pos : Nat
deriving DecidableEq, Repr

/-- `write_all` on a seekable sink: overwrite from the current position,
extend past the end, advance the position. -/
def SeekSink.write_all (s : SeekSink) (data : List Nat) : SeekSink :=
  { bytes := s.bytes.take s.pos ++ data ++ s.bytes.drop (s.pos + data.length)
    pos := s.pos + data.length }

/-- `seek(SeekFrom::Start(p))`. -/
def SeekSink.seek (s : SeekSink) (p : Nat) : SeekSink := { s with pos := p }

/-- `stream_position()`. -/
def SeekSink.stream_position (s : SeekSink) : Nat := s.pos

structure ZipArchiveNoStream where
  sink : SeekSink
  files_info : List ArchiveFileEntry
  archive_comment : List Nat
  archive_size : Nat
deriving DecidableEq, Repr

/-- `ZipArchiveNoStream::new`. -/
def ZipArchiveNoStream.new : ZipArchiveNoStream := ⟨⟨[], 0⟩, [], [], 0⟩

/-- `build_file_header` (`src/compress/std/archive.rs:465-513`): the local
header with zero CRC/size fields plus the provisional entry record; bit 3
is never set here. -/
def build_file_header (file_name : List Nat) (options : FileOptions)
    (compressor : Compressor) (offset : Nat) :
    ArchiveDescriptor × ArchiveFileEntry :=
  let file_name_len := file_name.length % 2 ^ 16
  let time := options.lastModTime
  let date := options.lastModDate
  let general_purpose_flags := noStreamGPFlags file_name
  let version_needed := compressor.version_needed
  let compression_method := compressor.compression_method
  let file_header := buildLocalFileHeader version_needed general_purpose_flags
    compression_method time date 0 0 0 file_name
  let archive_file_entry : ArchiveFileEntry := {
    file_name_as_bytes := file_name
    file_name_len := file_name_len
    compressed_size := 0
    uncompressed_size := 0
    crc32 := 0
    offset := offset
    last_mod_file_time := time
    last_mod_file_date := date
    compressor := compressor
    general_purpose_flags := general_purpose_flags
    extra_field_length := 0
    version_needed := version_needed
    compression_method := compression_method }
  (file_header, archive_file_entry)

/-- `ZipArchiveNoStream::append_file`
(`src/compress/std/archive.rs:368-418`): write the zero-filled header,
stream the payload at `Level::Default` (the configured level is not passed
through), record the new end position, seek back to
`offset + FILE_HEADER_CRC_OFFSET`, overwrite CRC/compressed/uncompressed,
seek forward to the end position, push the completed entry. -/
def ZipArchiveNoStream.append_file (enc : Codec) (a : ZipArchiveNoStream)
    (file_name payload : List Nat) (options : FileOptions) :
    Except (List Nat) ZipArchiveNoStream :=
  let file_header_offset := a.archive_size
  let compressor := options.compressor
  let fhe := build_file_header file_name options compressor (file_header_offset % 2 ^ 32)
  let sink1 := a.sink.write_all fhe.1.buffer
  let file_begin := sink1.stream_position
  match compressorOutput enc compressor Level.Default payload with
  | none => .error sink1.bytes
  | some out =>
    let sink2 := sink1.write_all out
    let archive_size := sink2.stream_position
    let compressed_size := archive_size - file_begin
    let crc32v := crc32 payload
    let uncompressed_size := payload.length % 2 ^ 32
    let archive_file_entry := { fhe.2 with
      crc32 := crc32v
      compressed_size := compressed_size % 2 ^ 32
      uncompressed_size := uncompressed_size }
    let file_data := (((ArchiveDescriptor.new (3 * 4)
      ).write_u32 crc32v
      ).write_u32 (compressed_size % 2 ^ 32)
      ).write_u32 uncompressed_size
    let sink3 := (sink2.seek (file_header_offset + FILE_HEADER_CRC_OFFSET)).write_all
      file_data.buffer
    let sink4 := sink3.seek archive_size
    .ok { sink := sink4
          files_info := a.files_info ++ [archive_file_entry]
          archive_comment := a.archive_comment
          archive_size := archive_size }

/-- A sequence of seekable `append_file` calls, aborting at the first
failure. -/
def ZipArchiveNoStream.appendAll (enc : Codec) (a : ZipArchiveNoStream) :
    List (List Nat × List Nat × FileOptions) → Except (List Nat) ZipArchiveNoStream
  | [] => .ok a
  | (n, p, o) :: rest =>
    match a.append_file enc n p o with
    | .error s => .error s
    | .ok a1 => a1.appendAll enc rest

/-- `ZipArchiveNoStream::finalize` (`src/compress/std/archive.rs:429-462`). -/
def ZipArchiveNoStream.finalize (a : ZipArchiveNoStream) : ZipArchiveNoStream :=
  let central_directory_offset := a.sink.stream_position % 2 ^ 32
  let cdBytes := (a.files_info.map (fun e =>
    (build_central_directory_file_header
      (ArchiveDescriptor.new (CENTRAL_DIRECTORY_ENTRY_BASE_SIZE + 200)) e).buffer)).flatten
  let sink1 := a.sink.write_all cdBytes
  let current_archive_size := sink1.stream_position
  let central_directory_size :=
    (current_archive_size % 2 ^ 32 + 2 ^ 32 - central_directory_offset) % 2 ^ 32
  let eocd := build_central_directory_end a.files_info.length a.archive_comment
    central_directory_offset central_directory_size
  let sink2 := sink1.write_all eocd.buffer
  { a with sink := sink2, archive_size := sink2.stream_position }

/-! ## Tokio `Archive` comment path (`src/archive.rs`)

Identical to the streaming `ZipArchive` except for the archive comment: it
is stored untruncated (`get_archive_comment`), the end record's length
field is `min(len, u16::MAX)` (`get_archive_comment_size`), but
`write_str` then appends the whole comment. -/

structure ArchiveTokio where
  sink : List Nat
  files_info : List ArchiveFileEntry
  archive_comment : Option (List Nat)
deriving DecidableEq, Repr

/-- `Archive::new`. -/
def ArchiveTokio.new : ArchiveTokio := ⟨[], [], none⟩

/-- `Archive::get_archive_comment` (the comment setter,
`src/archive.rs:45-47`): stores the whole comment. -/
def ArchiveTokio.get_archive_comment (a : ArchiveTokio) (comment : List Nat) : ArchiveTokio :=
  { a with archive_comment := some comment }

/-- `Archive::get_archive_comment_size` (`src/archive.rs:336-342`). -/
def ArchiveTokio.get_archive_comment_size (a : ArchiveTokio) : Nat :=
  match a.archive_comment with
  | some comment => min comment.length (2 ^ 16 - 1)
  | none => 0

/-- `Archive::finalize` (`src/archive.rs:266-334`): central directory as
in the streaming variant, then the end record; the comment-length field is
the truncated size but `write_str` appends the full comment bytes. -/
def ArchiveTokio.finalize (a : ArchiveTokio) : ArchiveTokio :=
  let central_directory_offset := a.sink.length % 2 ^ 32
  let cdBytes := (a.files_info.map (fun e =>
    (build_central_directory_file_header
      (ArchiveDescriptor.new (CENTRAL_DIRECTORY_ENTRY_BASE_SIZE + 200)) e).buffer)).flatten
  let sink1 := a.sink ++ cdBytes
  let central_directory_size :=
    (sink1.length % 2 ^ 32 + 2 ^ 32 - central_directory_offset) % 2 ^ 32
  let zip_file_comment_length := a.get_archive_comment_size
  let d := ((((((((ArchiveDescriptor.new END_OF_CENTRAL_DIRECTORY_SIZE
    ).write_u32 CENTRAL_DIRECTORY_END_SIGNATURE
    ).write_u16 0
    ).write_u16 0
    ).write_u16 (a.files_info.length % 2 ^ 16)
    ).write_u16 (a.files_info.length % 2 ^ 16)
    ).write_u32 central_directory_size
    ).write_u32 central_directory_offset
    ).write_u16 zip_file_comment_length
  let d2 := if zip_file_comment_length > 0 then d.write_bytes (a.archive_comment.getD []) else d
  { a with sink := sink1 ++ d2.buffer }

/-! ## Flat layouts and characterizations of the operations -/

/-- Flat byte layout of the end-of-central-directory record. -/
def eocdBytes (entriesCount : Nat) (archive_comment : List Nat)
    (central_directory_offset central_directory_size : Nat) : List Nat :=
  u32LE CENTRAL_DIRECTORY_END_SIGNATURE ++ u16LE 0 ++ u16LE 0 ++
    u16LE (entriesCount % 2 ^ 16) ++ u16LE (entriesCount % 2 ^ 16) ++
    u32LE central_directory_size ++ u32LE central_directory_offset ++
    u16LE (archive_comment.length % 2 ^ 16) ++
    (if archive_comment.length % 2 ^ 16 > 0 then archive_comment else [])

/-- The sink bytes one successful streaming append commits:
zero-filled local header, codec output, trailing data descriptor. -/
def streamBlock (o : FileOptions) (file_name payload out : List Nat) : List Nat :=
  localHeaderBytes o.compressor.version_needed (streamingGPFlags file_name)
      o.compressor.compression_method o.lastModTime o.lastModDate 0 0 0 file_name ++
    out ++
    (u32LE DATA_DESCRIPTOR_SIGNATURE ++ u32LE (crc32 payload) ++
      u32LE (out.length % 2 ^ 32) ++ u32LE (payload.length % 2 ^ 32))

/-- The entry record one successful streaming append pushes. -/
def streamEntry (o : FileOptions) (file_name payload out : List Nat)
    (offset : Nat) : ArchiveFileEntry :=
  { file_name_as_bytes := file_name
    file_name_len := file_name.length % 2 ^ 16
    uncompressed_size := payload.length % 2 ^ 32
    compressed_size := out.length % 2 ^ 32
    crc32 := crc32 payload
    offset := offset
    last_mod_file_time := o.lastModTime
    last_mod_file_date := o.lastModDate
    compressor := o.compressor
    general_purpose_flags := streamingGPFlags file_name
    extra_field_length := 0
    version_needed := o.compressor.version_needed
    compression_method := o.compressor.compression_method }

/-- The sink bytes one successful seekable append leaves behind: the
backpatched local header followed by the codec output. -/
def noStreamBlock (o : FileOptions) (file_name payload out : List Nat) : List Nat :=
  localHeaderBytes o.compressor.version_needed (noStreamGPFlags file_name)
      o.compressor.compression_method o.lastModTime o.lastModDate
      (crc32 payload) (out.length % 2 ^ 32) (payload.length % 2 ^ 32) file_name ++
    out

/-- The entry record one successful seekable append pushes. -/
def noStreamEntry (o : FileOptions) (file_name payload out : List Nat)
    (offset : Nat) : ArchiveFileEntry :=
  { file_name_as_bytes := file_name
    file_name_len := file_name.length % 2 ^ 16
    uncompressed_size := payload.length % 2 ^ 32
    compressed_size := out.length % 2 ^ 32
    crc32 := crc32 payload
    offset := offset
    last_mod_file_time := o.lastModTime
    last_mod_file_date := o.lastModDate
    compressor := o.compressor
    general_purpose_flags := noStreamGPFlags file_name
    extra_field_length := 0
    version_needed := o.compressor.version_needed
    compression_method := o.compressor.compression_method }

/-! ## Offset bookkeeping -/

/-- `offsetsFrom base entries blocks`: the entries' recorded
`local_header_offset`s are the running byte totals of the per-entry sink
blocks, starting from `base` (each taken `as u32`). -/
def offsetsFrom : Nat → List ArchiveFileEntry → List (List Nat) → Prop
  | _, [], [] => True
  | base, e :: es, b :: bs =>
    e.offset = base % 2 ^ 32 ∧ offsetsFrom (base + b.length) es bs
  | _, _, _ => False

/-! ## Concrete instances used by the witnesses -/

/-- A concrete codec behaviour (identity) for concrete runs; `Store`
never consults it. -/
def enc0 : Codec := ⟨fun _ _ p => p⟩

def stdStoreOpts : FileOptions :=
  { compressor := Compressor.Store
    compression_level := Level.Default
    lastModTime := 0
    lastModDate := 0
    permissions := none }

def optUnknown42 : FileOptions :=
  { compressor := Compressor.Unknown 42
    compression_level := Level.Default
    lastModTime := 0
    lastModDate := 0
    permissions := none }

def dummyEntry : ArchiveFileEntry :=
  { file_name_as_bytes := [97]
    file_name_len := 1
    uncompressed_size := 0
    compressed_size := 0
    crc32 := 0
    offset := 0
    last_mod_file_time := 0
    last_mod_file_date := 0
    compressor := Compressor.Store
    general_purpose_flags := 0
    extra_field_length := 0
    version_needed := 20
    compression_method := 0 }

def w1a : ZipArchive :=
  (ZipArchive.new.append_file enc0 [104, 105] [10, 20, 30] stdStoreOpts).toOption.getD
    ZipArchive.new

def w2a : ZipArchiveNoStream :=
  (ZipArchiveNoStream.new.append_file enc0 [104, 105] [10, 20, 30]
    stdStoreOpts).toOption.getD ZipArchiveNoStream.new

def w4inputs : List (List Nat × List Nat × FileOptions) :=
  [([97], [1, 2], stdStoreOpts), ([98], [3], stdStoreOpts)]

def w4a : ZipArchive :=
  (ZipArchive.new.appendAll enc0 w4inputs).toOption.getD ZipArchive.new

def w5a : ZipArchive := ⟨[5, 6], [dummyEntry], [7]⟩

def w7a : ZipArchive :=
  (ZipArchive.new.append_file enc0 [97] [1]
    ((FileOptions.defaults.compression_method Compressor.Store).unix_permissions
      0o700)).toOption.getD ZipArchive.new

def w7e : ArchiveFileEntry := w7a.files_info.getD 0 dummyEntry

/-- The UTF-8 bytes of the one-character name `é`. -/
def eAcute : List Nat := [0xC3, 0xA9]

/-- The 65536-byte archive comment used against the tokio comment path. -/
def longComment : List Nat := List.replicate 65536 97

/-! ## Theorems -/

@[simp] theorem length_u16LE (v : Nat) : (u16LE v).length = 2 := rfl

@[simp] theorem length_u32LE (v : Nat) : (u32LE v).length = 4 := rfl

theorem buildLocalFileHeader_buffer (vn gp cm t d crc cs us : Nat) (name : List Nat) :
    (buildLocalFileHeader vn gp cm t d crc cs us name).buffer =
      localHeaderBytes vn gp cm t d crc cs us name := by
  simp [buildLocalFileHeader, localHeaderBytes, localHeaderPre,
    ArchiveDescriptor.new, ArchiveDescriptor.write_u32, ArchiveDescriptor.write_u16,
    ArchiveDescriptor.write_bytes, List.append_assoc]

theorem build_central_directory_file_header_buffer (e : ArchiveFileEntry) :
    (build_central_directory_file_header
      (ArchiveDescriptor.new (CENTRAL_DIRECTORY_ENTRY_BASE_SIZE + 200)) e).buffer =
      cdFileHeaderBytes e := by
  simp [build_central_directory_file_header, cdFileHeaderBytes,
    ArchiveDescriptor.new, ArchiveDescriptor.write_u32, ArchiveDescriptor.write_u16,
    ArchiveDescriptor.write_bytes, List.append_assoc]

theorem build_central_directory_end_buffer (n : Nat) (c : List Nat) (cdo cs : Nat) :
    (build_central_directory_end n c cdo cs).buffer = eocdBytes n c cdo cs := by
  simp only [build_central_directory_end, eocdBytes, ArchiveDescriptor.new,
    ArchiveDescriptor.write_u32, ArchiveDescriptor.write_u16, ArchiveDescriptor.write_bytes,
    apply_ite ArchiveDescriptor.buffer]
  split <;> simp

@[simp] theorem localHeaderPre_length (vn gp cm t d : Nat) :
    (localHeaderPre vn gp cm t d).length = 14 := by
  simp [localHeaderPre]

@[simp] theorem localHeaderBytes_length (vn gp cm t d crc cs us : Nat) (name : List Nat) :
    (localHeaderBytes vn gp cm t d crc cs us name).length = 30 + name.length := by
  simp [localHeaderBytes]
  omega

/-- The UTF-8 flag condition of the source is vacuous: both operands of
`file_name_as_bytes_own.len() > file_name.len()` are the UTF-8 byte
length. -/
@[simp] theorem streamingGPFlags_eq (file_name : List Nat) :
    streamingGPFlags file_name = 8 := by
  simp [streamingGPFlags, rustStrLen]

@[simp] theorem noStreamGPFlags_eq (file_name : List Nat) :
    noStreamGPFlags file_name = 0 := by
  simp [noStreamGPFlags, rustStrLen]

theorem stream_append_ok (enc : Codec) (a : ZipArchive) (file_name payload : List Nat)
    (o : FileOptions) (out : List Nat)
    (h : compressorOutput enc o.compressor o.compression_level payload = some out) :
    a.append_file enc file_name payload o = .ok
      { sink := a.sink ++ streamBlock o file_name payload out
        files_info := a.files_info ++
          [streamEntry o file_name payload out (a.sink.length % 2 ^ 32)]
        archive_comment := a.archive_comment } := by
  simp only [ZipArchive.append_file, h]
  simp [streamBlock, streamEntry, buildLocalFileHeader_buffer,
    ArchiveDescriptor.new, ArchiveDescriptor.write_u32,
    List.length_append, List.append_assoc]
  have hlen : a.sink.length + (30 + file_name.length + out.length) -
      (a.sink.length + (30 + file_name.length)) = out.length := by omega
  rw [hlen]
  exact ⟨rfl, rfl⟩

theorem stream_append_error (enc : Codec) (a : ZipArchive) (file_name payload : List Nat)
    (o : FileOptions)
    (h : compressorOutput enc o.compressor o.compression_level payload = none) :
    a.append_file enc file_name payload o = .error
      (a.sink ++ localHeaderBytes o.compressor.version_needed
        (streamingGPFlags file_name) o.compressor.compression_method
        o.lastModTime o.lastModDate 0 0 0 file_name) := by
  simp only [ZipArchive.append_file, h]
  simp [buildLocalFileHeader_buffer]

/-- Every successful streaming append has the `stream_append_ok` shape. -/
theorem stream_append_shape (enc : Codec) (a : ZipArchive) (file_name payload : List Nat)
    (o : FileOptions) (a1 : ZipArchive)
    (h : a.append_file enc file_name payload o = .ok a1) :
    ∃ out, compressorOutput enc o.compressor o.compression_level payload = some out ∧
      a1 = { sink := a.sink ++ streamBlock o file_name payload out
             files_info := a.files_info ++
               [streamEntry o file_name payload out (a.sink.length % 2 ^ 32)]
             archive_comment := a.archive_comment } := by
  cases hm : compressorOutput enc o.compressor o.compression_level payload with
  | none => rw [stream_append_error enc a file_name payload o hm] at h; cases h
  | some out =>
    rw [stream_append_ok enc a file_name payload o out hm] at h
    exact ⟨out, rfl, (Except.ok.injEq _ _).mp h.symm⟩

/-- A write at the end of a seekable sink is a plain append. -/
theorem SeekSink.write_all_at_end (s : SeekSink) (d : List Nat)
    (h : s.pos = s.bytes.length) :
    s.write_all d = ⟨s.bytes ++ d, s.bytes.length + d.length⟩ := by
  unfold SeekSink.write_all
  rw [h]
  refine congrArg₂ SeekSink.mk ?_ rfl
  rw [List.take_length, List.drop_eq_nil_of_le (by omega), List.append_nil]


/-- A write strictly inside a seekable sink replaces bytes in place: if
the sink holds `B ++ (preH ++ midH ++ postH) ++ out`, the position sits
just past `B ++ preH`, and the data has the length of `midH`, then the
write substitutes the data for `midH` and leaves everything else. -/
theorem SeekSink.write_all_patch (s : SeekSink) (B preH midH postH out patch : List Nat)
    (hbytes : s.bytes = B ++ (preH ++ midH ++ postH) ++ out)
    (hp : s.pos = B.length + preH.length) (hlen : patch.length = midH.length) :
    s.write_all patch = ⟨B ++ (preH ++ patch ++ postH) ++ out, s.pos + patch.length⟩ := by
  unfold SeekSink.write_all
  refine congrArg₂ SeekSink.mk ?_ rfl
  have h1 : s.bytes.take s.pos = B ++ preH := by
    rw [hbytes, hp,
      show B ++ (preH ++ midH ++ postH) ++ out =
        (B ++ preH) ++ (midH ++ (postH ++ out)) by simp [List.append_assoc]]
    exact List.take_left' (by simp)
  have h2 : s.bytes.drop (s.pos + patch.length) = postH ++ out := by
    rw [hbytes, hp,
      show B ++ (preH ++ midH ++ postH) ++ out =
        ((B ++ preH) ++ midH) ++ (postH ++ out) by simp [List.append_assoc]]
    exact List.drop_left' (by simp [hlen]; omega)
  rw [h1, h2]
  simp [List.append_assoc]

theorem nostream_append_ok (enc : Codec) (a : ZipArchiveNoStream)
    (file_name payload : List Nat) (o : FileOptions) (out : List Nat)
    (hpos : a.sink.pos = a.sink.bytes.length)
    (hsz : a.archive_size = a.sink.bytes.length)
    (h : compressorOutput enc o.compressor Level.Default payload = some out) :
    a.append_file enc file_name payload o = .ok
      { sink := ⟨a.sink.bytes ++ noStreamBlock o file_name payload out,
          a.sink.bytes.length + (noStreamBlock o file_name payload out).length⟩
        files_info := a.files_info ++
          [noStreamEntry o file_name payload out (a.sink.bytes.length % 2 ^ 32)]
        archive_comment := a.archive_comment
        archive_size := a.sink.bytes.length +
          (noStreamBlock o file_name payload out).length } := by
  have hbuf := buildLocalFileHeader_buffer o.compressor.version_needed
    (noStreamGPFlags file_name) o.compressor.compression_method
    o.lastModTime o.lastModDate 0 0 0 file_name
  set H0 := localHeaderBytes o.compressor.version_needed (noStreamGPFlags file_name)
    o.compressor.compression_method o.lastModTime o.lastModDate 0 0 0 file_name with hH0
  set B := a.sink.bytes with hBdef
  have e1 : a.sink.write_all H0 = ⟨B ++ H0, B.length + H0.length⟩ :=
    SeekSink.write_all_at_end a.sink H0 hpos
  have e2 : SeekSink.write_all ⟨B ++ H0, B.length + H0.length⟩ out =
      ⟨B ++ (H0 ++ out), B.length + H0.length + out.length⟩ := by
    rw [SeekSink.write_all_at_end _ _ (by simp)]
    refine congrArg₂ SeekSink.mk (by simp) (by simp)
  have e4 : SeekSink.write_all
      ⟨B ++ (H0 ++ out), a.archive_size + FILE_HEADER_CRC_OFFSET⟩
      (u32LE (crc32 payload) ++ u32LE ((B.length + H0.length + out.length -
        (B.length + H0.length)) % 2 ^ 32) ++ u32LE (payload.length % 2 ^ 32)) =
      ⟨B ++ (localHeaderPre o.compressor.version_needed (noStreamGPFlags file_name)
          o.compressor.compression_method o.lastModTime o.lastModDate ++
        (u32LE (crc32 payload) ++ u32LE ((B.length + H0.length + out.length -
          (B.length + H0.length)) % 2 ^ 32) ++ u32LE (payload.length % 2 ^ 32)) ++
        (u16LE (file_name.length % 2 ^ 16) ++ u16LE 0 ++ file_name)) ++ out,
      a.archive_size + FILE_HEADER_CRC_OFFSET + 12⟩ := by
    rw [SeekSink.write_all_patch _ B
      (localHeaderPre o.compressor.version_needed (noStreamGPFlags file_name)
        o.compressor.compression_method o.lastModTime o.lastModDate)
      (u32LE 0 ++ u32LE 0 ++ u32LE 0)
      (u16LE (file_name.length % 2 ^ 16) ++ u16LE 0 ++ file_name)
      out _
      (by rw [hH0]; simp [localHeaderBytes, List.append_assoc])
      (by rw [hsz]; simp [FILE_HEADER_CRC_OFFSET])
      (by simp)]
    refine congrArg₂ SeekSink.mk rfl (by simp)
  have ecs : B.length + H0.length + out.length - (B.length + H0.length) = out.length := by
    omega
  simp only [ZipArchiveNoStream.append_file, build_file_header, hbuf, h,
    SeekSink.stream_position, SeekSink.seek, e1, e2]
  have epb : ((((ArchiveDescriptor.new (3 * 4)).write_u32 (crc32 payload)).write_u32
      ((B.length + H0.length + out.length - (B.length + H0.length)) % 2 ^ 32)).write_u32
      (payload.length % 2 ^ 32)).buffer =
      u32LE (crc32 payload) ++ u32LE ((B.length + H0.length + out.length -
        (B.length + H0.length)) % 2 ^ 32) ++ u32LE (payload.length % 2 ^ 32) := by
    simp [ArchiveDescriptor.new, ArchiveDescriptor.write_u32, List.append_assoc]
  rw [epb, e4, ecs]
  simp only [hH0]
  simp [noStreamBlock, noStreamEntry, localHeaderBytes, localHeaderPre, hsz,
    List.append_assoc, List.length_append]
  omega

theorem nostream_append_error (enc : Codec) (a : ZipArchiveNoStream)
    (file_name payload : List Nat) (o : FileOptions)
    (hpos : a.sink.pos = a.sink.bytes.length)
    (h : compressorOutput enc o.compressor Level.Default payload = none) :
    a.append_file enc file_name payload o = .error
      (a.sink.bytes ++ localHeaderBytes o.compressor.version_needed
        (noStreamGPFlags file_name) o.compressor.compression_method
        o.lastModTime o.lastModDate 0 0 0 file_name) := by
  have hbuf := buildLocalFileHeader_buffer o.compressor.version_needed
    (noStreamGPFlags file_name) o.compressor.compression_method
    o.lastModTime o.lastModDate 0 0 0 file_name
  have e1 := SeekSink.write_all_at_end a.sink
    (localHeaderBytes o.compressor.version_needed (noStreamGPFlags file_name)
      o.compressor.compression_method o.lastModTime o.lastModDate 0 0 0 file_name) hpos
  simp only [ZipArchiveNoStream.append_file, build_file_header, hbuf, e1, h]

/-- Every successful seekable append, started from a sink whose position
is at its end and a consistent `archive_size`, has the
`nostream_append_ok` shape. -/
theorem nostream_append_shape (enc : Codec) (a : ZipArchiveNoStream)
    (file_name payload : List Nat) (o : FileOptions) (a1 : ZipArchiveNoStream)
    (hpos : a.sink.pos = a.sink.bytes.length)
    (hsz : a.archive_size = a.sink.bytes.length)
    (h : a.append_file enc file_name payload o = .ok a1) :
    ∃ out, compressorOutput enc o.compressor Level.Default payload = some out ∧
      a1 = { sink := ⟨a.sink.bytes ++ noStreamBlock o file_name payload out,
               a.sink.bytes.length + (noStreamBlock o file_name payload out).length⟩
             files_info := a.files_info ++
               [noStreamEntry o file_name payload out (a.sink.bytes.length % 2 ^ 32)]
             archive_comment := a.archive_comment
             archive_size := a.sink.bytes.length +
               (noStreamBlock o file_name payload out).length } := by
  cases hm : compressorOutput enc o.compressor Level.Default payload with
  | none => rw [nostream_append_error enc a file_name payload o hpos hm] at h; cases h
  | some out =>
    rw [nostream_append_ok enc a file_name payload o out hpos hsz hm] at h
    exact ⟨out, rfl, (Except.ok.injEq _ _).mp h.symm⟩

theorem offsetsFrom_snoc (base : Nat) (es : List ArchiveFileEntry)
    (bs : List (List Nat)) (e : ArchiveFileEntry) (b : List Nat)
    (h : offsetsFrom base es bs)
    (he : e.offset = (base + (bs.map List.length).sum) % 2 ^ 32) :
    offsetsFrom base (es ++ [e]) (bs ++ [b]) := by
  induction es generalizing base bs with
  | nil =>
    cases bs with
    | nil => exact ⟨by simpa using he, trivial⟩
    | cons b' bs' => exact absurd h (by simp [offsetsFrom])
  | cons e' es' ih =>
    cases bs with
    | nil => exact absurd h (by simp [offsetsFrom])
    | cons b' bs' =>
      obtain ⟨h1, h2⟩ := h
      exact ⟨h1, ih (base + b'.length) bs' h2 (by simpa [Nat.add_assoc] using he)⟩

/-- Invariant preserved by the streaming writer: the sink is the
concatenation of one block per entry and the offsets are the running
totals. -/
theorem stream_appendAll_inv (enc : Codec)
    (inputs : List (List Nat × List Nat × FileOptions)) (a a' : ZipArchive)
    (blocks : List (List Nat))
    (hsink : a.sink = blocks.flatten)
    (hoff : offsetsFrom 0 a.files_info blocks)
    (h : a.appendAll enc inputs = .ok a') :
    ∃ blocks', a'.sink = blocks'.flatten ∧ offsetsFrom 0 a'.files_info blocks' := by
  induction inputs generalizing a blocks with
  | nil =>
    simp only [ZipArchive.appendAll] at h
    cases h
    exact ⟨blocks, hsink, hoff⟩
  | cons x rest ih =>
    obtain ⟨n, p, o⟩ := x
    simp only [ZipArchive.appendAll] at h
    cases hm : a.append_file enc n p o with
    | error s => rw [hm] at h; cases h
    | ok a1 =>
      rw [hm] at h
      obtain ⟨out, _, ha1⟩ := stream_append_shape enc a n p o a1 hm
      refine ih a1 (blocks ++ [streamBlock o n p out]) ?_ ?_ h
      · rw [ha1, hsink]
        simp
      · rw [ha1]
        refine offsetsFrom_snoc 0 a.files_info blocks _ _ hoff ?_
        simp [streamEntry, hsink, List.length_flatten]

/-- Invariant preserved by the seekable writer: position at the end,
consistent `archive_size`, sink = concatenation of per-entry blocks,
offsets = running totals. -/
theorem nostream_appendAll_inv (enc : Codec)
    (inputs : List (List Nat × List Nat × FileOptions))
    (a a' : ZipArchiveNoStream) (blocks : List (List Nat))
    (hpos : a.sink.pos = a.sink.bytes.length)
    (hsz : a.archive_size = a.sink.bytes.length)
    (hsink : a.sink.bytes = blocks.flatten)
    (hoff : offsetsFrom 0 a.files_info blocks)
    (h : a.appendAll enc inputs = .ok a') :
    ∃ blocks', a'.sink.bytes = blocks'.flatten ∧
      offsetsFrom 0 a'.files_info blocks' := by
  induction inputs generalizing a blocks with
  | nil =>
    simp only [ZipArchiveNoStream.appendAll] at h
    cases h
    exact ⟨blocks, hsink, hoff⟩
  | cons x rest ih =>
    obtain ⟨n, p, o⟩ := x
    simp only [ZipArchiveNoStream.appendAll] at h
    cases hm : a.append_file enc n p o with
    | error s => rw [hm] at h; cases h
    | ok a1 =>
      rw [hm] at h
      obtain ⟨out, _, ha1⟩ := nostream_append_shape enc a n p o a1 hpos hsz hm
      refine ih a1 (blocks ++ [noStreamBlock o n p out]) ?_ ?_ ?_ ?_ h
      · rw [ha1]; simp
      · rw [ha1]; simp
      · rw [ha1, hsink]; simp
      · rw [ha1]
        refine offsetsFrom_snoc 0 a.files_info blocks _ _ hoff ?_
        simp [noStreamEntry, hsink, List.length_flatten]

/-! ## Finalize layouts -/

theorem stream_finalize_sink (a : ZipArchive) :
    a.finalize.sink = a.sink ++ (a.files_info.map cdFileHeaderBytes).flatten ++
      eocdBytes a.files_info.length a.archive_comment (a.sink.length % 2 ^ 32)
        (((a.sink ++ (a.files_info.map cdFileHeaderBytes).flatten).length % 2 ^ 32 +
          2 ^ 32 - a.sink.length % 2 ^ 32) % 2 ^ 32) := by
  simp only [ZipArchive.finalize, build_central_directory_file_header_buffer,
    build_central_directory_end_buffer, List.append_assoc]

/-- The `u32` difference computed by both `finalize` implementations is
the central directory's byte length whenever the totals fit in 32 bits. -/
theorem u32_delta_eq (x c : Nat) (h : x + c < 2 ^ 32) :
    ((x + c) % 2 ^ 32 + 2 ^ 32 - x % 2 ^ 32) % 2 ^ 32 = c := by
  omega

theorem drop_take_middle (pre mid post : List Nat) (i k : Nat)
    (hi : pre.length = i) (hk : mid.length = k) :
    ((pre ++ (mid ++ post)).drop i).take k = mid := by
  rw [List.drop_left' hi, List.take_left' hk]

theorem nostream_finalize_sink (b : ZipArchiveNoStream)
    (hb : b.sink.pos = b.sink.bytes.length) :
    b.finalize.sink.bytes = b.sink.bytes ++
      (b.files_info.map cdFileHeaderBytes).flatten ++
      eocdBytes b.files_info.length b.archive_comment (b.sink.bytes.length % 2 ^ 32)
        (((b.sink.bytes.length + ((b.files_info.map cdFileHeaderBytes).flatten).length) %
          2 ^ 32 + 2 ^ 32 - b.sink.bytes.length % 2 ^ 32) % 2 ^ 32) := by
  have e1 := SeekSink.write_all_at_end b.sink
    ((b.files_info.map cdFileHeaderBytes).flatten) hb
  simp only [ZipArchiveNoStream.finalize, build_central_directory_file_header_buffer,
    SeekSink.stream_position, hb, e1]
  rw [SeekSink.write_all_at_end _ _ (by simp)]
  simp [build_central_directory_end_buffer, List.append_assoc]

/-! ## Claim theorems -/

/-- C9: `from_compression_method` round-trips every method code through
`compression_method`, and the (method code, version-needed) pairs of the
variants are Store(0,20), Deflate(8,20) (also its `DeflateFate2` twin),
BZip2(12,46), Lzma(14,20), Zstd(93,20), Xz(95,20) and Unknown(c,20). -/
theorem compressor_code_roundtrip :
    (∀ c : Nat, (Compressor.from_compression_method c).compression_method = c) ∧
    Compressor.Store.compression_method = 0 ∧
    Compressor.Store.version_needed = 20 ∧
    Compressor.Deflate.compression_method = 8 ∧
    Compressor.Deflate.version_needed = 20 ∧
    Compressor.DeflateFate2.compression_method = 8 ∧
    Compressor.DeflateFate2.version_needed = 20 ∧
    Compressor.BZip2.compression_method = 12 ∧
    Compressor.BZip2.version_needed = 46 ∧
    Compressor.Lzma.compression_method = 14 ∧
    Compressor.Lzma.version_needed = 20 ∧
    Compressor.Zstd.compression_method = 93 ∧
    Compressor.Zstd.version_needed = 20 ∧
    Compressor.Xz.compression_method = 95 ∧
    Compressor.Xz.version_needed = 20 ∧
    ∀ code : Nat, (Compressor.Unknown code).compression_method = code ∧
      (Compressor.Unknown code).version_needed = 20 := by
  refine ⟨fun c => ?_, rfl, rfl, rfl, rfl, rfl, rfl, rfl, rfl, rfl, rfl, rfl,
    rfl, rfl, rfl, fun code => ⟨rfl, rfl⟩⟩
  simp only [Compressor.from_compression_method]
  split_ifs with h1 h2 h3 h4 h5 h6 <;>
    simp_all [Compressor.compression_method, STORE, DEFALTE, BZIP2, LZMA, ZSTD, XZ]

/-- C10: in the seekable writer the configured compression level is never
passed on (`compress` is always called with `Level::Default`), so two
appends whose options differ only in `compression_level` produce identical
results — same sink bytes, same entry metadata, same outcome. -/
theorem nostream_level_has_no_effect (enc : Codec) (a : ZipArchiveNoStream)
    (file_name payload : List Nat) (o : FileOptions) (l1 l2 : Level) :
    a.append_file enc file_name payload (o.with_compression_level l1) =
      a.append_file enc file_name payload (o.with_compression_level l2) := rfl

/-- C3: the source's UTF-8 flag test compares `as_bytes().len()` with the
Rust `str::len`, which are the same number, so bit 11 is never set — in
particular not for the multi-byte name `é`, where the spec requires it. -/
theorem utf8_flag_never_set :
    (∀ file_name : List Nat, streamingGPFlags file_name = 8) ∧
    (∀ file_name : List Nat, noStreamGPFlags file_name = 0) ∧
    (∀ file_name : List Nat, (streamingGPFlags file_name).testBit 11 = false) ∧
    (∀ file_name : List Nat, (noStreamGPFlags file_name).testBit 11 = false) ∧
    utf8CharCount eAcute < eAcute.length ∧
    (streamingGPFlags eAcute).testBit 11 = false ∧
    (noStreamGPFlags eAcute).testBit 11 = false := by
  refine ⟨fun n => streamingGPFlags_eq n, fun n => noStreamGPFlags_eq n,
    fun n => by rw [streamingGPFlags_eq]; decide,
    fun n => by rw [noStreamGPFlags_eq]; decide,
    by decide, by decide, by decide⟩

/-- C6 (amended): an append with `Compressor::Unknown` always aborts (the
`compress` panic) and never emits payload bytes, a descriptor, or an entry
record — but the abort happens only after the local file header bytes have
already been committed to the sink, and through a panic rather than a
recoverable error value. -/
theorem unknown_compressor_always_fails (enc : Codec) (a : ZipArchive)
    (file_name payload : List Nat) (code : Nat) (lvl : Level) (t d : Nat)
    (perm : Option Nat) :
    a.append_file enc file_name payload
      { compressor := Compressor.Unknown code
        compression_level := lvl
        lastModTime := t
        lastModDate := d
        permissions := perm } =
      .error (a.sink ++ localHeaderBytes 20 (streamingGPFlags file_name) code
        t d 0 0 0 file_name) :=
  stream_append_error enc a file_name payload _ rfl

/-- C6 counterexample: appending with `Unknown(42)` to a fresh streaming
archive fails only after the 31 local-header bytes for the entry were
already written to the sink, refuting "the failure is reported before any
bytes are written to the sink for that entry". -/
theorem unknown_compressor_writes_header_first :
    ZipArchive.new.append_file enc0 [97] [1, 2, 3] optUnknown42 =
      .error (localHeaderBytes 20 8 42 0 0 0 0 0 [97]) ∧
    (localHeaderBytes 20 8 42 0 0 0 0 0 [97]).length = 31 ∧
    localHeaderBytes 20 8 42 0 0 0 0 0 [97] ≠ [] := by
  refine ⟨by rfl, by rfl, by decide⟩

/-- C7 (amended): every central-directory record's external-attributes
field is the hard-coded constant `0o100644 << 16` (regular file,
`rw-r--r--`); `FileOptions::unix_permissions` stores `mode & 0o777` but
the stored value never influences an append in either writer variant. -/
theorem external_attrs_constant :
    (∀ e : ArchiveFileEntry,
      ((cdFileHeaderBytes e).drop 38).take 4 = u32LE (0o100644 <<< 16)) ∧
    (∀ (o : FileOptions) (mode : Nat),
      o.unix_permissions mode = { o with permissions := some (mode &&& 0o777) }) ∧
    (∀ (enc : Codec) (a : ZipArchive) (n p : List Nat) (o : FileOptions)
      (m1 m2 : Nat),
      a.append_file enc n p (o.unix_permissions m1) =
        a.append_file enc n p (o.unix_permissions m2)) ∧
    (∀ (enc : Codec) (a : ZipArchiveNoStream) (n p : List Nat) (o : FileOptions)
      (m1 m2 : Nat),
      a.append_file enc n p (o.unix_permissions m1) =
        a.append_file enc n p (o.unix_permissions m2)) := by
  refine ⟨fun e => ?_, fun o mode => rfl, fun _ _ _ _ _ _ _ => rfl,
    fun _ _ _ _ _ _ _ => rfl⟩
  rw [show cdFileHeaderBytes e =
    (u32LE CENTRAL_DIRECTORY_ENTRY_SIGNATURE ++ u16LE e.versionMadeBy ++
      u16LE e.version_needed ++ u16LE e.general_purpose_flags ++
      u16LE e.compression_method ++ u16LE e.last_mod_file_time ++
      u16LE e.last_mod_file_date ++ u32LE e.crc32 ++ u32LE e.compressed_size ++
      u32LE e.uncompressed_size ++ u16LE e.file_name_len ++ u16LE 0 ++ u16LE 0 ++
      u16LE 0 ++ u16LE 0) ++
      (u32LE (0o100644 <<< 16) ++ (u32LE e.offset ++ e.file_name_as_bytes))
    by simp [cdFileHeaderBytes, List.append_assoc]]
  exact drop_take_middle _ _ _ 38 4 (by simp) (by simp)

/-- C7 counterexample: the entry appended with `unix_permissions(0o700)`
still gets external attributes `0o100644 << 16` in its central-directory
record, not the configured `0o100700 << 16`. -/
theorem external_attrs_ignore_unix_permissions :
    w7a.files_info = [w7e] ∧
    ((cdFileHeaderBytes w7e).drop 38).take 4 = u32LE (0o100644 <<< 16) ∧
    ((cdFileHeaderBytes w7e).drop 38).take 4 ≠ u32LE (0o100700 <<< 16) := by
  refine ⟨by rfl, by decide, by decide⟩

/-- C8: in the std streaming writer the archive comment is truncated to
65535 bytes when set, the end record's comment-length field is
`min(len, 65535)`, and exactly that many comment bytes follow it as the
final bytes of the archive.  In the tokio `Archive`, however, `finalize`
writes the truncated size into the length field and then writes the whole
untruncated comment: with a 65536-byte comment the length field says 65535
while 65536 bytes follow it. -/
theorem archive_comment_truncation :
    (∀ (a : ZipArchive) (c : List Nat),
      ∃ pre, ((a.set_archive_comment c).finalize).sink =
        pre ++ u16LE (min c.length 65535) ++ c.take 65535 ∧
        (c.take 65535).length = min c.length 65535) ∧
    ((ArchiveTokio.new.get_archive_comment longComment).finalize.sink =
      u32LE CENTRAL_DIRECTORY_END_SIGNATURE ++ u16LE 0 ++ u16LE 0 ++ u16LE 0 ++
        u16LE 0 ++ u32LE 0 ++ u32LE 0 ++ u16LE 65535 ++ longComment ∧
      longComment.length = 65536 ∧ (65536 : Nat) ≠ 65535) := by
  constructor
  · intro a c
    have h16 : (2 : Nat) ^ 16 - 1 = 65535 := by norm_num
    have hsa : a.set_archive_comment c = ⟨a.sink, a.files_info, c.take 65535⟩ := by
      simp only [ZipArchive.set_archive_comment, h16]
      congr 1
      rcases Nat.le_total c.length 65535 with h | h
      · rw [Nat.min_eq_left h, List.take_of_length_le h,
          List.take_of_length_le (by omega)]
      · rw [Nat.min_eq_right h]
    have hmod : (c.take 65535).length % 2 ^ 16 = min c.length 65535 := by
      rw [List.length_take, Nat.min_comm, Nat.mod_eq_of_lt (by omega)]
    have hif : (if min c.length 65535 > 0 then c.take 65535 else []) =
        c.take 65535 := by
      rcases Nat.eq_zero_or_pos (min c.length 65535) with h0 | h0
      · rw [if_neg (by omega)]
        have hc : c.length = 0 := by omega
        rw [List.eq_nil_of_length_eq_zero hc]
        simp
      · rw [if_pos h0]
    refine ⟨(⟨a.sink, a.files_info, c.take 65535⟩ : ZipArchive).sink ++
      ((⟨a.sink, a.files_info, c.take 65535⟩ : ZipArchive).files_info.map
        cdFileHeaderBytes).flatten ++
      (u32LE CENTRAL_DIRECTORY_END_SIGNATURE ++ u16LE 0 ++ u16LE 0 ++
        u16LE (a.files_info.length % 2 ^ 16) ++ u16LE (a.files_info.length % 2 ^ 16) ++
        u32LE (((a.sink ++ (a.files_info.map cdFileHeaderBytes).flatten).length %
          2 ^ 32 + 2 ^ 32 - a.sink.length % 2 ^ 32) % 2 ^ 32) ++
        u32LE (a.sink.length % 2 ^ 32)), ?_, ?_⟩
    · rw [hsa, stream_finalize_sink]
      simp only [eocdBytes, hmod, hif, List.append_assoc]
    · rw [List.length_take, Nat.min_comm]
  · refine ⟨?_, by simp only [longComment, List.length_replicate], by omega⟩
    have hlen : longComment.length = 65536 := by
      simp only [longComment, List.length_replicate]
    have h1 : ArchiveTokio.new.get_archive_comment longComment =
        ⟨[], [], some longComment⟩ := rfl
    rw [h1]
    simp only [ArchiveTokio.finalize, ArchiveTokio.get_archive_comment_size,
      List.map_nil, List.flatten_nil, List.append_nil, List.nil_append,
      List.length_nil, Option.getD_some, hlen]
    norm_num
    simp only [ArchiveDescriptor.new, ArchiveDescriptor.write_u32,
      ArchiveDescriptor.write_u16, ArchiveDescriptor.write_bytes,
      List.nil_append, List.append_assoc]

/-- C1: every successful streaming append sets flag bit 3, writes the
local header with zero CRC/size fields, then the codec payload bytes, then
a data descriptor holding the CRC-32 of the uncompressed payload, the
compressed size (= the byte-counting sink's delta across the payload
write), and the uncompressed byte count. -/
theorem stream_append_layout (enc : Codec) (a : ZipArchive)
    (file_name payload : List Nat) (o : FileOptions) (a1 : ZipArchive)
    (h : a.append_file enc file_name payload o = .ok a1) :
    ∃ out, compressorOutput enc o.compressor o.compression_level payload = some out ∧
      (streamingGPFlags file_name).testBit 3 = true ∧
      a1.sink = a.sink ++
        (localHeaderBytes o.compressor.version_needed (streamingGPFlags file_name)
          o.compressor.compression_method o.lastModTime o.lastModDate 0 0 0 file_name ++
         (out ++
          (u32LE DATA_DESCRIPTOR_SIGNATURE ++ u32LE (crc32 payload) ++
           u32LE (out.length % 2 ^ 32) ++ u32LE (payload.length % 2 ^ 32)))) ∧
      a1.files_info = a.files_info ++
        [streamEntry o file_name payload out (a.sink.length % 2 ^ 32)] ∧
      (a.sink ++ localHeaderBytes o.compressor.version_needed
          (streamingGPFlags file_name) o.compressor.compression_method
          o.lastModTime o.lastModDate 0 0 0 file_name ++ out).length -
        (a.sink ++ localHeaderBytes o.compressor.version_needed
          (streamingGPFlags file_name) o.compressor.compression_method
          o.lastModTime o.lastModDate 0 0 0 file_name).length = out.length := by
  obtain ⟨out, hm, ha⟩ := stream_append_shape enc a file_name payload o a1 h
  refine ⟨out, hm, by rw [streamingGPFlags_eq]; decide, ?_, by rw [ha],
    by simp; omega⟩
  rw [ha]
  simp [streamBlock, List.append_assoc]

/-- C2: a successful seekable append never sets flag bit 3, leaves the
sink holding the old bytes, the local header backpatched in place with the
CRC/compressed/uncompressed values (12 bytes starting at
`offset + FILE_HEADER_CRC_OFFSET`, in that order), then the payload, with
the final position just past the payload; the patched values are exactly
the entry values that `finalize` copies into the central-directory record
(at byte offset 16 of that record). -/
theorem nostream_append_backpatch (enc : Codec) (a : ZipArchiveNoStream)
    (file_name payload : List Nat) (o : FileOptions) (a1 : ZipArchiveNoStream)
    (hpos : a.sink.pos = a.sink.bytes.length)
    (hsz : a.archive_size = a.sink.bytes.length)
    (h : a.append_file enc file_name payload o = .ok a1) :
    ∃ out e,
      compressorOutput enc o.compressor Level.Default payload = some out ∧
      a1.files_info = a.files_info ++ [e] ∧
      e = noStreamEntry o file_name payload out (a.sink.bytes.length % 2 ^ 32) ∧
      e.general_purpose_flags.testBit 3 = false ∧
      FILE_HEADER_CRC_OFFSET = 14 ∧
      a1.sink.bytes = a.sink.bytes ++
        (localHeaderBytes o.compressor.version_needed (noStreamGPFlags file_name)
          o.compressor.compression_method o.lastModTime o.lastModDate
          e.crc32 e.compressed_size e.uncompressed_size file_name ++ out) ∧
      a1.sink.pos = a1.sink.bytes.length ∧
      (a1.sink.bytes.drop (a.sink.bytes.length + FILE_HEADER_CRC_OFFSET)).take 12 =
        u32LE e.crc32 ++ u32LE e.compressed_size ++ u32LE e.uncompressed_size ∧
      ((cdFileHeaderBytes e).drop 16).take 12 =
        u32LE e.crc32 ++ u32LE e.compressed_size ++ u32LE e.uncompressed_size := by
  obtain ⟨out, hm, ha⟩ := nostream_append_shape enc a file_name payload o a1 hpos hsz h
  refine ⟨out, noStreamEntry o file_name payload out (a.sink.bytes.length % 2 ^ 32),
    hm, by rw [ha], rfl, ?_, rfl, ?_, ?_, ?_, ?_⟩
  · simp only [noStreamEntry, noStreamGPFlags_eq]
    decide
  · rw [ha]
    simp [noStreamBlock, noStreamEntry, List.append_assoc]
  · rw [ha]
    simp [noStreamBlock, List.append_assoc]
  · rw [ha]
    simp only [noStreamBlock, noStreamEntry]
    rw [show a.sink.bytes ++ (localHeaderBytes o.compressor.version_needed
        (noStreamGPFlags file_name) o.compressor.compression_method
        o.lastModTime o.lastModDate (crc32 payload) (out.length % 2 ^ 32)
        (payload.length % 2 ^ 32) file_name ++ out) =
      (a.sink.bytes ++ localHeaderPre o.compressor.version_needed
        (noStreamGPFlags file_name) o.compressor.compression_method
        o.lastModTime o.lastModDate) ++
      ((u32LE (crc32 payload) ++ u32LE (out.length % 2 ^ 32) ++
        u32LE (payload.length % 2 ^ 32)) ++
       ((u16LE (file_name.length % 2 ^ 16) ++ u16LE 0 ++ file_name) ++ out)) by
      simp [localHeaderBytes, List.append_assoc]]
    rw [show a.sink.bytes.length + FILE_HEADER_CRC_OFFSET =
      (a.sink.bytes ++ localHeaderPre o.compressor.version_needed
        (noStreamGPFlags file_name) o.compressor.compression_method
        o.lastModTime o.lastModDate).length by simp [FILE_HEADER_CRC_OFFSET]]
    rw [List.drop_left, List.take_left' (by simp)]
  · rw [show cdFileHeaderBytes (noStreamEntry o file_name payload out
        (a.sink.bytes.length % 2 ^ 32)) =
      (u32LE CENTRAL_DIRECTORY_ENTRY_SIGNATURE ++
        u16LE (noStreamEntry o file_name payload out
          (a.sink.bytes.length % 2 ^ 32)).versionMadeBy ++
        u16LE o.compressor.version_needed ++ u16LE (noStreamGPFlags file_name) ++
        u16LE o.compressor.compression_method ++ u16LE o.lastModTime ++
        u16LE o.lastModDate) ++
      ((u32LE (crc32 payload) ++ u32LE (out.length % 2 ^ 32) ++
        u32LE (payload.length % 2 ^ 32)) ++
       (u16LE (file_name.length % 2 ^ 16) ++ u16LE 0 ++ u16LE 0 ++ u16LE 0 ++
        u16LE 0 ++ u32LE (0o100644 <<< 16) ++
        u32LE (a.sink.bytes.length % 2 ^ 32) ++ file_name)) by
      simp [cdFileHeaderBytes, noStreamEntry, List.append_assoc]]
    rw [List.drop_left' (by simp), List.take_left' (by simp)]
    simp [noStreamEntry]

/-- C4: in both writer variants the appended entry's
`local_header_offset` is captured as the sink's byte count at the moment
the header write began (as `u32`), earlier entries are left untouched;
starting from a fresh writer the offsets are the running sums of the
per-entry block lengths (header + payload + descriptor where present);
and the central-directory record emits `u32LE e.offset` at its fixed byte
offset 42. -/
theorem local_header_offset_invariant :
    (∀ (enc : Codec) (a : ZipArchive) (n p : List Nat) (o : FileOptions)
      (a1 : ZipArchive), a.append_file enc n p o = .ok a1 →
      ∃ e, a1.files_info = a.files_info ++ [e] ∧
        e.offset = a.sink.length % 2 ^ 32) ∧
    (∀ (enc : Codec) (a : ZipArchiveNoStream) (n p : List Nat) (o : FileOptions)
      (a1 : ZipArchiveNoStream),
      a.sink.pos = a.sink.bytes.length → a.archive_size = a.sink.bytes.length →
      a.append_file enc n p o = .ok a1 →
      ∃ e, a1.files_info = a.files_info ++ [e] ∧
        e.offset = a.sink.bytes.length % 2 ^ 32) ∧
    (∀ (enc : Codec) (inputs : List (List Nat × List Nat × FileOptions))
      (a1 : ZipArchive), ZipArchive.new.appendAll enc inputs = .ok a1 →
      ∃ blocks, a1.sink = blocks.flatten ∧ offsetsFrom 0 a1.files_info blocks) ∧
    (∀ (enc : Codec) (inputs : List (List Nat × List Nat × FileOptions))
      (a1 : ZipArchiveNoStream),
      ZipArchiveNoStream.new.appendAll enc inputs = .ok a1 →
      ∃ blocks, a1.sink.bytes = blocks.flatten ∧
        offsetsFrom 0 a1.files_info blocks) ∧
    (∀ e : ArchiveFileEntry,
      ((cdFileHeaderBytes e).drop 42).take 4 = u32LE e.offset) := by
  refine ⟨?_, ?_, ?_, ?_, ?_⟩
  · intro enc a n p o a1 h
    obtain ⟨out, _, ha⟩ := stream_append_shape enc a n p o a1 h
    exact ⟨streamEntry o n p out (a.sink.length % 2 ^ 32), by rw [ha], rfl⟩
  · intro enc a n p o a1 hpos hsz h
    obtain ⟨out, _, ha⟩ := nostream_append_shape enc a n p o a1 hpos hsz h
    exact ⟨noStreamEntry o n p out (a.sink.bytes.length % 2 ^ 32), by rw [ha], rfl⟩
  · intro enc inputs a1 h
    exact stream_appendAll_inv enc inputs ZipArchive.new a1 [] rfl trivial h
  · intro enc inputs a1 h
    exact nostream_appendAll_inv enc inputs ZipArchiveNoStream.new a1 [] rfl rfl rfl
      trivial h
  · intro e
    rw [show cdFileHeaderBytes e =
      (u32LE CENTRAL_DIRECTORY_ENTRY_SIGNATURE ++ u16LE e.versionMadeBy ++
        u16LE e.version_needed ++ u16LE e.general_purpose_flags ++
        u16LE e.compression_method ++ u16LE e.last_mod_file_time ++
        u16LE e.last_mod_file_date ++ u32LE e.crc32 ++ u32LE e.compressed_size ++
        u32LE e.uncompressed_size ++ u16LE e.file_name_len ++ u16LE 0 ++
        u16LE 0 ++ u16LE 0 ++ u16LE 0 ++ u32LE (0o100644 <<< 16)) ++
        (u32LE e.offset ++ e.file_name_as_bytes) by
      simp [cdFileHeaderBytes, List.append_assoc]]
    rw [List.drop_left' (by simp), List.take_left' (by simp)]

/-- C5: `finalize` appends one central-directory record per entry in
insertion order, then the end record whose two entry-count fields hold the
entry count, whose `central_directory_size` is the byte length of the
records just written, and whose `central_directory_offset` is the sink's
byte count when `finalize` began; with zero entries the end record is
still written with both counts and the directory size equal to zero. -/
theorem finalize_central_directory_layout :
    (∀ a : ZipArchive,
      a.files_info.length < 2 ^ 16 →
      (a.sink ++ (a.files_info.map cdFileHeaderBytes).flatten).length < 2 ^ 32 →
      a.finalize.sink = a.sink ++ (a.files_info.map cdFileHeaderBytes).flatten ++
        (u32LE CENTRAL_DIRECTORY_END_SIGNATURE ++ u16LE 0 ++ u16LE 0 ++
         u16LE a.files_info.length ++ u16LE a.files_info.length ++
         u32LE ((a.files_info.map cdFileHeaderBytes).flatten).length ++
         u32LE a.sink.length ++ u16LE (a.archive_comment.length % 2 ^ 16) ++
         (if a.archive_comment.length % 2 ^ 16 > 0 then a.archive_comment else []))) ∧
    (∀ sink comment : List Nat,
      (ZipArchive.finalize ⟨sink, [], comment⟩).sink = sink ++
        (u32LE CENTRAL_DIRECTORY_END_SIGNATURE ++ u16LE 0 ++ u16LE 0 ++
         u16LE 0 ++ u16LE 0 ++ u32LE 0 ++ u32LE (sink.length % 2 ^ 32) ++
         u16LE (comment.length % 2 ^ 16) ++
         (if comment.length % 2 ^ 16 > 0 then comment else []))) := by
  constructor
  · intro a h16 h32
    rw [stream_finalize_sink]
    have hcs : ((a.sink ++ (a.files_info.map cdFileHeaderBytes).flatten).length %
        2 ^ 32 + 2 ^ 32 - a.sink.length % 2 ^ 32) % 2 ^ 32 =
        ((a.files_info.map cdFileHeaderBytes).flatten).length := by
      rw [List.length_append] at h32 ⊢
      exact u32_delta_eq _ _ h32
    have hn : a.files_info.length % 2 ^ 16 = a.files_info.length :=
      Nat.mod_eq_of_lt h16
    have hs : a.sink.length % 2 ^ 32 = a.sink.length := by
      rw [List.length_append] at h32
      exact Nat.mod_eq_of_lt (by omega)
    rw [eocdBytes, hcs, hn, hs]
  · intro sink comment
    rw [stream_finalize_sink]
    have hcs : ((sink ++ (([] : List ArchiveFileEntry).map cdFileHeaderBytes).flatten).length %
        2 ^ 32 + 2 ^ 32 - sink.length % 2 ^ 32) % 2 ^ 32 = 0 := by
      simp
    rw [hcs, eocdBytes]
    simp [List.append_assoc]

/-- Witness for C1 at a concrete `Store` append. -/
theorem stream_append_layout_witness :
    (ZipArchive.new.append_file enc0 [104, 105] [10, 20, 30] stdStoreOpts =
      .ok w1a) ∧
    (∃ out, compressorOutput enc0 stdStoreOpts.compressor
        stdStoreOpts.compression_level [10, 20, 30] = some out ∧
      (streamingGPFlags [104, 105]).testBit 3 = true ∧
      w1a.sink = ZipArchive.new.sink ++
        (localHeaderBytes stdStoreOpts.compressor.version_needed
          (streamingGPFlags [104, 105]) stdStoreOpts.compressor.compression_method
          stdStoreOpts.lastModTime stdStoreOpts.lastModDate 0 0 0 [104, 105] ++
         (out ++
          (u32LE DATA_DESCRIPTOR_SIGNATURE ++ u32LE (crc32 [10, 20, 30]) ++
           u32LE (out.length % 2 ^ 32) ++
           u32LE (([10, 20, 30] : List Nat).length % 2 ^ 32)))) ∧
      w1a.files_info = ZipArchive.new.files_info ++
        [streamEntry stdStoreOpts [104, 105] [10, 20, 30] out
          (ZipArchive.new.sink.length % 2 ^ 32)] ∧
      (ZipArchive.new.sink ++ localHeaderBytes stdStoreOpts.compressor.version_needed
          (streamingGPFlags [104, 105]) stdStoreOpts.compressor.compression_method
          stdStoreOpts.lastModTime stdStoreOpts.lastModDate 0 0 0 [104, 105] ++
          out).length -
        (ZipArchive.new.sink ++ localHeaderBytes stdStoreOpts.compressor.version_needed
          (streamingGPFlags [104, 105]) stdStoreOpts.compressor.compression_method
          stdStoreOpts.lastModTime stdStoreOpts.lastModDate 0 0 0
          [104, 105]).length = out.length) :=
  ⟨rfl, stream_append_layout enc0 ZipArchive.new [104, 105] [10, 20, 30]
    stdStoreOpts w1a rfl⟩

/-- Witness for C2 at a concrete `Store` append on a fresh seekable
archive. -/
theorem nostream_append_backpatch_witness :
    ZipArchiveNoStream.new.sink.pos = ZipArchiveNoStream.new.sink.bytes.length ∧
    ZipArchiveNoStream.new.archive_size = ZipArchiveNoStream.new.sink.bytes.length ∧
    (ZipArchiveNoStream.new.append_file enc0 [104, 105] [10, 20, 30] stdStoreOpts =
      .ok w2a) ∧
    (∃ out e,
      compressorOutput enc0 stdStoreOpts.compressor Level.Default [10, 20, 30] =
        some out ∧
      w2a.files_info = ZipArchiveNoStream.new.files_info ++ [e] ∧
      e = noStreamEntry stdStoreOpts [104, 105] [10, 20, 30] out
        (ZipArchiveNoStream.new.sink.bytes.length % 2 ^ 32) ∧
      e.general_purpose_flags.testBit 3 = false ∧
      FILE_HEADER_CRC_OFFSET = 14 ∧
      w2a.sink.bytes = ZipArchiveNoStream.new.sink.bytes ++
        (localHeaderBytes stdStoreOpts.compressor.version_needed
          (noStreamGPFlags [104, 105]) stdStoreOpts.compressor.compression_method
          stdStoreOpts.lastModTime stdStoreOpts.lastModDate
          e.crc32 e.compressed_size e.uncompressed_size [104, 105] ++ out) ∧
      w2a.sink.pos = w2a.sink.bytes.length ∧
      (w2a.sink.bytes.drop (ZipArchiveNoStream.new.sink.bytes.length +
          FILE_HEADER_CRC_OFFSET)).take 12 =
        u32LE e.crc32 ++ u32LE e.compressed_size ++ u32LE e.uncompressed_size ∧
      ((cdFileHeaderBytes e).drop 16).take 12 =
        u32LE e.crc32 ++ u32LE e.compressed_size ++ u32LE e.uncompressed_size) :=
  ⟨rfl, rfl, rfl, nostream_append_backpatch enc0 ZipArchiveNoStream.new
    [104, 105] [10, 20, 30] stdStoreOpts w2a rfl rfl rfl⟩

/-- Witness for C4: two concrete `Store` appends from a fresh streaming
archive. -/
theorem local_header_offset_invariant_witness :
    (ZipArchive.new.appendAll enc0 w4inputs = .ok w4a) ∧
    (∃ blocks, w4a.sink = blocks.flatten ∧ offsetsFrom 0 w4a.files_info blocks) :=
  ⟨rfl, local_header_offset_invariant.2.2.1 enc0 w4inputs w4a rfl⟩

/-- Witness for C5 at a concrete one-entry archive. -/
theorem finalize_central_directory_layout_witness :
    w5a.files_info.length < 2 ^ 16 ∧
    (w5a.sink ++ (w5a.files_info.map cdFileHeaderBytes).flatten).length < 2 ^ 32 ∧
    (w5a.finalize.sink = w5a.sink ++ (w5a.files_info.map cdFileHeaderBytes).flatten ++
      (u32LE CENTRAL_DIRECTORY_END_SIGNATURE ++ u16LE 0 ++ u16LE 0 ++
       u16LE w5a.files_info.length ++ u16LE w5a.files_info.length ++
       u32LE ((w5a.files_info.map cdFileHeaderBytes).flatten).length ++
       u32LE w5a.sink.length ++ u16LE (w5a.archive_comment.length % 2 ^ 16) ++
       (if w5a.archive_comment.length % 2 ^ 16 > 0 then w5a.archive_comment else []))) :=
  ⟨by decide, by decide,
    finalize_central_directory_layout.1 w5a (by decide) (by decide)⟩

